import Mathlib

/-!
Verification development for the Spanish-law ingestion pipeline
(census builder, rate-limited fetcher, structural HTML parser, and
ingestion orchestrator).

The TypeScript sources are embedded shallowly:

* all text processing is modelled on `List Char` (one element per Unicode
  code point; the original operates on JavaScript strings, whose indices
  are UTF-16 units — the texts involved are BMP-only, where the two views
  agree);
* the JavaScript regular expressions used by the parser are transcribed
  into a small backtracking regex engine (`Re` / `mRe`) with the same
  greedy/lazy backtracking order, case-insensitivity flags and capture
  groups as the originals, and `g`-flag scanning is modelled by
  `allMatches` advancing past each match exactly as `RegExp.exec` does;
* network, clock and filesystem effects are made explicit: the fetcher is
  a function of the per-attempt HTTP statuses and response durations and
  of an idealised millisecond clock (`setTimeout` sleeps exactly its
  argument, `Date.now()` is the current instant), and the orchestrator
  and census builder take the outcome of each external read as input.
-/

namespace Spanish

/-! ## Character helpers -/

/-- JavaScript whitespace (the `\s` class and `String.prototype.trim`):
space, tab, LF, VT, FF, CR, NBSP and the common Unicode space separators. -/
def isJsSpace (c : Char) : Bool :=
  c = ' ' || c = '\t' || c = '\n' || c = '\x0b' || c = '\x0c' || c = '\r' ||
  c = '\u00A0' || c = '\u1680' ||
  ('\u2000' ≤ c && c ≤ '\u200A') ||
  c = '\u2028' || c = '\u2029' || c = '\u202F' || c = '\u205F' ||
  c = '\u3000' || c = '\uFEFF'

/-- Lower-casing as `String.prototype.toLowerCase` acts on the characters
appearing in BOE legislation text: ASCII letters plus the accented
Spanish letters. -/
def jsLower (c : Char) : Char :=
  if 'A' ≤ c && c ≤ 'Z' then Char.ofNat (c.toNat + 32)
  else if c = 'Á' then 'á'
  else if c = 'É' then 'é'
  else if c = 'Í' then 'í'
  else if c = 'Ó' then 'ó'
  else if c = 'Ú' then 'ú'
  else if c = 'Ñ' then 'ñ'
  else if c = 'Ü' then 'ü'
  else c

def isDigitCh (c : Char) : Bool := '0' ≤ c && c ≤ '9'

def isAsciiLetter (c : Char) : Bool :=
  ('a' ≤ c && c ≤ 'z') || ('A' ≤ c && c ≤ 'Z')

/-- JavaScript word characters (`\w`), used by the `\b` assertion. -/
def isWordChar (c : Char) : Bool := isAsciiLetter c || isDigitCh c || c = '_'

/-! ## List-of-characters utilities (JavaScript string operations) -/

/-- `s.toLowerCase()`. -/
def jsLowerL (s : List Char) : List Char := s.map jsLower

/-- `s.replace(/\s+/g, '')` (the parser strips internal whitespace this way). -/
def stripWsL (s : List Char) : List Char := s.filter (fun c => !isJsSpace c)

/-- `s.trim()`. -/
def trimL (s : List Char) : List Char :=
  ((s.dropWhile isJsSpace).reverse.dropWhile isJsSpace).reverse

/-- `s.substring(a, b)` for `a ≤ b` (every use in the source satisfies this). -/
def substrL (s : List Char) (a b : Nat) : List Char := (s.take b).drop a

/-- Does `pat` occur at the head of `s` (case-sensitively)? -/
def headMatches : List Char → List Char → Bool
  | [], _ => true
  | _ :: _, [] => false
  | p :: ps, c :: cs => p = c && headMatches ps cs

/-- `s.indexOf(pat, start)`; `none` models the JavaScript result `-1`. -/
def indexOfFromAux (pat : List Char) : List Char → Nat → Option Nat
  | [], pos => if pat = [] then some pos else none
  | c :: cs, pos =>
    if headMatches pat (c :: cs) then some pos
    else indexOfFromAux pat cs (pos + 1)

def indexOfFromL (s pat : List Char) (start : Nat) : Option Nat :=
  indexOfFromAux pat (s.drop start) start

/-- `s.includes(pat)`. -/
def containsL (s pat : List Char) : Bool := (indexOfFromL s pat 0).isSome

/-! ## A small backtracking regex engine

The JavaScript regular expressions of the parser are transcribed into
this syntax.  `mRe` is a continuation-passing backtracking matcher with
exactly the JavaScript preference order: alternatives left to right,
greedy quantifiers take the longest iteration count first, lazy (`*?`)
quantifiers the shortest, and a quantifier never repeats an iteration
that consumed nothing.  The previously consumed character is threaded
through for the word-boundary assertion `\b`.  A fuel argument makes the
recursion structural; `fuelFor` is far larger than the deepest call chain
any of the transcribed patterns can generate, so the fuel-exhausted
branch is never taken for them. -/

inductive Re where
  | pc (p : Char → Bool)
  | lit (s : List Char) (ci : Bool)
  | cat (a b : Re)
  | alt (a b : Re)
  | star (r : Re) (lazy : Bool)
  | opt (r : Re)
  | group (n : Nat) (r : Re)
  | wordB

/-- Syntactic size of a pattern, used only to compute a generous fuel. -/
def reSize : Re → Nat
  | .pc _ => 1
  | .lit s _ => s.length + 1
  | .cat a b => reSize a + reSize b + 1
  | .alt a b => reSize a + reSize b + 1
  | .star r _ => reSize r + 1
  | .opt r => reSize r + 1
  | .group _ r => reSize r + 1
  | .wordB => 1

/-- Captures recorded so far; later records shadow earlier ones. -/
abbrev Caps := List (Nat × List Char)

/-- Consume the literal `l` (case-insensitively when `ci`), returning the
rest of the input and the last consumed character. -/
def dropLit (ci : Bool) : List Char → List Char → Option Char →
    Option (List Char × Option Char)
  | [], s, prev => some (s, prev)
  | _ :: _, [], _ => none
  | a :: l, c :: s, _ =>
    if (if ci then jsLower a = jsLower c else a = c) then
      dropLit ci l s (some c)
    else none

def rePlus (r : Re) : Re := .cat r (.star r false)

def reSeq (rs : List Re) : Re := rs.foldr .cat (.lit [] false)

/-- The backtracking matcher.  `k` is the success continuation receiving
the unconsumed suffix, the character just before it, and the captures. -/
def mRe : Nat → Re → List Char → Option Char → Caps →
    (List Char → Option Char → Caps → Option (List Char × Caps)) →
    Option (List Char × Caps)
  | 0, _, _, _, _, _ => none
  | fuel + 1, re, s, prev, cp, k =>
    match re with
    | .pc p =>
      match s with
      | [] => none
      | c :: rest => if p c then k rest (some c) cp else none
    | .lit l ci =>
      match dropLit ci l s prev with
      | some (rest, prev2) => k rest prev2 cp
      | none => none
    | .cat a b =>
      mRe fuel a s prev cp (fun s1 p1 c1 => mRe fuel b s1 p1 c1 k)
    | .alt a b =>
      (mRe fuel a s prev cp k).orElse (fun _ => mRe fuel b s prev cp k)
    | .opt r =>
      (mRe fuel r s prev cp k).orElse (fun _ => k s prev cp)
    | .star r lz =>
      let iter := fun (_ : Unit) =>
        mRe fuel r s prev cp (fun s1 p1 c1 =>
          if s1.length < s.length then mRe fuel (.star r lz) s1 p1 c1 k
          else none)
      if lz then (k s prev cp).orElse (fun _ => iter ())
      else (iter ()).orElse (fun _ => k s prev cp)
    | .group n r =>
      mRe fuel r s prev cp (fun s1 p1 c1 =>
        k s1 p1 ((n, s.take (s.length - s1.length)) :: c1))
    | .wordB =>
      let pw := match prev with | some c => isWordChar c | none => false
      let nw := match s with | c :: _ => isWordChar c | [] => false
      if pw ≠ nw then k s prev cp else none

/-- Fuel that the transcribed patterns can never exhaust: every step of
the matcher either consumes input or descends into a strictly smaller
subpattern. -/
def fuelFor (re : Re) (s : List Char) : Nat :=
  (s.length + 1) * (reSize re + 2) + 2

/-- Anchored match at the head of `s`: consumed length and captures.
`prev` is the character immediately before `s` in the full subject. -/
def firstMatchAt (re : Re) (s : List Char) (prev : Option Char) :
    Option (Nat × Caps) :=
  match mRe (fuelFor re s) re s prev [] (fun rest _ cp => some (rest, cp)) with
  | some (rest, cp) => some (s.length - rest.length, cp)
  | none => none

/-- One regex match: start position, matched text, captures. -/
structure RMatch where
  pos : Nat
  matched : List Char
  caps : Caps
  deriving Repr, DecidableEq

/-- Search for the leftmost match at position ≥ `pos` (as
`RegExp.prototype.exec` / `String.prototype.match` do). -/
def searchFromAux (re : Re) : List Char → Option Char → Nat → Option RMatch
  | s, prev, pos =>
    match firstMatchAt re s prev with
    | some (len, cp) => some ⟨pos, s.take len, cp⟩
    | none =>
      match s with
      | [] => none
      | c :: rest => searchFromAux re rest (some c) (pos + 1)

def searchFirst (re : Re) (s : List Char) : Option RMatch :=
  searchFromAux re s none 0

/-- All matches, scanning as a `g`-flagged `exec` loop does: resume just
after each match (one character further when the match was empty). -/
def allMatchesAux (re : Re) : Nat → List Char → Option Char → Nat →
    List RMatch
  | 0, _, _, _ => []
  | fuel + 1, s, prev, pos =>
    match searchFromAux re s prev pos with
    | none => []
    | some m =>
      let skip := m.pos - pos + max m.matched.length 1
      let consumed := s.take skip
      m :: allMatchesAux re fuel (s.drop skip) (consumed.getLast?) (pos + skip)

def allMatches (re : Re) (s : List Char) : List RMatch :=
  allMatchesAux re (s.length + 1) s none 0

/-- Capture group `n` of a match, with the JavaScript `?? ''` default for
groups that did not participate. -/
def capStr (n : Nat) (cp : Caps) : List Char :=
  match cp.find? (fun e => e.1 = n) with
  | some e => e.2
  | none => []

/-- `s.replace(re, repl)` with a `g` flag: replace every match. -/
def replaceAllAux (re : Re) (repl : List Char) :
    Nat → List Char → Option Char → List Char
  | 0, s, _ => s
  | fuel + 1, s, prev =>
    match firstMatchAt re s prev with
    | some (len, _) =>
      if len = 0 then
        match s with
        | [] => repl
        | c :: rest => repl ++ c :: replaceAllAux re repl fuel rest (some c)
      else
        repl ++ replaceAllAux re repl fuel (s.drop len)
          ((s.take len).getLast?)
    | none =>
      match s with
      | [] => []
      | c :: rest => c :: replaceAllAux re repl fuel rest (some c)

def replaceAllRe (re : Re) (repl s : List Char) : List Char :=
  replaceAllAux re repl (s.length + 1) s none

/-- `s.replace(re, repl)` without a `g` flag: replace only the first match. -/
def replaceFirstAux (re : Re) (repl : List Char) :
    List Char → Option Char → List Char
  | s, prev =>
    match firstMatchAt re s prev with
    | some (len, _) => repl ++ s.drop len
    | none =>
      match s with
      | [] => []
      | c :: rest => c :: replaceFirstAux re repl rest (some c)

def replaceFirstRe (re : Re) (repl s : List Char) : List Char :=
  replaceFirstAux re repl s none

/-! ## `stripHtml` (parser, lines 130-171)

Strip HTML tags and decode common entities, normalising whitespace, in
exactly the order of the source: script/style blocks, then all tags, then
the fixed entity table, then numeric entities, then whitespace collapse
and trim. -/

def anyCh : Char → Bool := fun _ => true

def notGt : Char → Bool := fun c => c != '>'

def reScriptBlock : Re :=
  reSeq [.lit "<script".data true, .star (.pc notGt) false, .lit ">".data true,
    .star (.pc anyCh) true, .lit "</script>".data true]

def reStyleBlock : Re :=
  reSeq [.lit "<style".data true, .star (.pc notGt) false, .lit ">".data true,
    .star (.pc anyCh) true, .lit "</style>".data true]

/-- `/<[^>]+>/g`. -/
def reTag : Re := reSeq [.lit "<".data false, rePlus (.pc notGt), .lit ">".data false]

/-- `/&#\d+;/g`. -/
def reEntNum : Re := reSeq [.lit "&#".data false, rePlus (.pc isDigitCh), .lit ";".data false]

/-- `/\s+/g`. -/
def reWsRun : Re := rePlus (.pc isJsSpace)

/-- The fixed entity-decoding table, in source order.  `Char.ofNat 39` is
the apostrophe decoded from the entity on line 146. -/
def entityPairs : List (List Char × List Char) :=
  [ ("&nbsp;".data, " ".data), ("&amp;".data, "&".data),
    ("&lt;".data, "<".data), ("&gt;".data, ">".data),
    ("&quot;".data, "\"".data), ("&#39;".data, [Char.ofNat 39]),
    ("&aacute;".data, "á".data), ("&eacute;".data, "é".data),
    ("&iacute;".data, "í".data), ("&oacute;".data, "ó".data),
    ("&uacute;".data, "ú".data), ("&ntilde;".data, "ñ".data),
    ("&Aacute;".data, "Á".data), ("&Eacute;".data, "É".data),
    ("&Iacute;".data, "Í".data), ("&Oacute;".data, "Ó".data),
    ("&Uacute;".data, "Ú".data), ("&Ntilde;".data, "Ñ".data),
    ("&uuml;".data, "ü".data), ("&Uuml;".data, "Ü".data),
    ("&laquo;".data, "«".data), ("&raquo;".data, "»".data),
    ("&ordm;".data, "º".data), ("&ordf;".data, "ª".data),
    ("&ndash;".data, "–".data), ("&mdash;".data, "—".data) ]

def stripHtml (h : List Char) : List Char :=
  let h1 := replaceAllRe reScriptBlock [] h
  let h2 := replaceAllRe reStyleBlock [] h1
  let h3 := replaceAllRe reTag " ".data h2
  let h4 := entityPairs.foldl (fun acc p => replaceAllRe (.lit p.1 false) p.2 acc) h3
  let h5 := replaceAllRe reEntNum [] h4
  let h6 := replaceAllRe reWsRun " ".data h5
  trimL h6

/-! ## Transcriptions of the parser's regular expressions -/

def isHCh : Char → Bool := fun c => c == 'h' || c == 'H'

def isPCh : Char → Bool := fun c => c == 'p' || c == 'P'

def is36 : Char → Bool := fun c => '3' ≤ c && c ≤ '6'

def is45 : Char → Bool := fun c => c == '4' || c == '5'

def isICh : Char → Bool := fun c => c == 'i' || c == 'í' || c == 'I' || c == 'Í'

/-- `Art[ií]culo` under the `i` flag. -/
def reArtIculo : Re := reSeq [.lit "art".data true, .pc isICh, .lit "culo".data true]

/-- `(?:bis|ter|quater|quinquies|sexies|septies|octies)`, `i` flag. -/
def reMods : Re :=
  .alt (.lit "bis".data true) (.alt (.lit "ter".data true)
    (.alt (.lit "quater".data true) (.alt (.lit "quinquies".data true)
      (.alt (.lit "sexies".data true) (.alt (.lit "septies".data true)
        (.lit "octies".data true))))))

/-- `\d+[a-zA-Z]*(?:\s+(?:bis|…|octies))?` — the article ordinal. -/
def reOrdinal : Re :=
  reSeq [rePlus (.pc isDigitCh), .star (.pc isAsciiLetter) false,
    .opt (reSeq [rePlus (.pc isJsSpace), reMods])]

/-- `/<div[^>]*class="articulo"[^>]*(?:id="([^"]*)")?[^>]*>/gi`
(parser, line 220). -/
def reArticulo : Re :=
  reSeq [.lit "<div".data true, .star (.pc notGt) false,
    .lit "class=\"articulo\"".data true, .star (.pc notGt) false,
    .opt (reSeq [.lit "id=\"".data true,
      .group 1 (.star (.pc (fun c => c != '"')) false), .lit "\"".data true]),
    .star (.pc notGt) false, .lit ">".data true]

/-- `<(?:h[3-6]|p)[^>]*>` under the `i` flag. -/
def reHp36Open : Re :=
  reSeq [.lit "<".data true,
    .alt (reSeq [.pc isHCh, .pc is36]) (.pc isPCh),
    .star (.pc notGt) false, .lit ">".data true]

/-- `<\/(?:h[3-6]|p)>` under the `i` flag. -/
def reHp36Close : Re :=
  reSeq [.lit "</".data true,
    .alt (reSeq [.pc isHCh, .pc is36]) (.pc isPCh),
    .lit ">".data true]

/-- The fallback-strategy heading pattern (parser, line 231):
`/<(?:h[3-6]|p)[^>]*>\s*(?:<[^>]+>)*\s*Art[ií]culo\s+(\d+[a-zA-Z]*(?:\s+(?:bis|ter|quater|quinquies|sexies|septies|octies))?)\b[.\s]*([\s\S]*?)<\/(?:h[3-6]|p)>/gi`. -/
def reArtHeading : Re :=
  reSeq [reHp36Open,
    .star (.pc isJsSpace) false,
    .star (reSeq [.lit "<".data true, rePlus (.pc notGt), .lit ">".data true]) false,
    .star (.pc isJsSpace) false,
    reArtIculo, rePlus (.pc isJsSpace),
    .group 1 reOrdinal, .wordB,
    .star (.pc (fun c => c == '.' || isJsSpace c)) false,
    .group 2 (.star (.pc anyCh) true),
    reHp36Close]

/-- `/<h[45][^>]*>([\s\S]*?)<\/h[45]>/i` (parser, line 292). -/
def reH45 : Re :=
  reSeq [.lit "<h".data true, .pc is45, .star (.pc notGt) false, .lit ">".data true,
    .group 1 (.star (.pc anyCh) true),
    .lit "</h".data true, .pc is45, .lit ">".data true]

/-- `/Art[ií]culo\s+(\d+[a-zA-Z]*(?:\s+(?:bis|…))?)/i` (parser, line 303). -/
def reNum : Re := reSeq [reArtIculo, rePlus (.pc isJsSpace), .group 1 reOrdinal]

def notLineTerm : Char → Bool :=
  fun c => !(c == '\n' || c == '\r' || c == '\u2028' || c == '\u2029')

/-- `/Art[ií]culo\s+\d+[a-zA-Z]*(?:\s+(?:bis|…))?\.?\s*(.*)/i`
(parser, line 311). -/
def reTitle : Re :=
  reSeq [reArtIculo, rePlus (.pc isJsSpace),
    rePlus (.pc isDigitCh), .star (.pc isAsciiLetter) false,
    .opt (reSeq [rePlus (.pc isJsSpace), reMods]),
    .opt (.lit ".".data false), .star (.pc isJsSpace) false,
    .group 1 (.star (.pc notLineTerm) false)]

/-- `/a(?:rt[ií]culo)?[-_]?(\d+[a-zA-Z]*)/i` (parser, line 320). -/
def reIdNum : Re :=
  reSeq [.lit "a".data true,
    .opt (reSeq [.lit "rt".data true, .pc isICh, .lit "culo".data true]),
    .opt (.pc (fun c => c == '-' || c == '_')),
    .group 1 (reSeq [rePlus (.pc isDigitCh), .star (.pc isAsciiLetter) false])]

/-- `(?:p|h[34])` under the `i` flag. -/
def rePh34 : Re := .alt (.pc isPCh) (reSeq [.pc isHCh, .pc (fun c => c == '3' || c == '4')])

/-- First chapter-heading pattern (parser, line 185):
`/<(?:p|h[34])[^>]*class="(?:titulo|capitulo)[^"]*"[^>]*>([\s\S]*?)<\/(?:p|h[34])>/gi`. -/
def reChapA : Re :=
  reSeq [.lit "<".data true, rePh34, .star (.pc notGt) false,
    .lit "class=\"".data true,
    .alt (.lit "titulo".data true) (.lit "capitulo".data true),
    .star (.pc (fun c => c != '"')) false, .lit "\"".data true,
    .star (.pc notGt) false, .lit ">".data true,
    .group 1 (.star (.pc anyCh) true),
    .lit "</".data true, rePh34, .lit ">".data true]

/-- Second chapter-heading pattern (parser, line 187):
`/<div[^>]*class="(?:titulo|capitulo)"[^>]*>([\s\S]*?)<\/div>/gi`. -/
def reChapB : Re :=
  reSeq [.lit "<div".data true, .star (.pc notGt) false,
    .lit "class=\"".data true,
    .alt (.lit "titulo".data true) (.lit "capitulo".data true),
    .lit "\"".data true, .star (.pc notGt) false, .lit ">".data true,
    .group 1 (.star (.pc anyCh) true),
    .lit "</div>".data true]

/-- Heading-removal pattern of the fallback strategy (parser, line 251) —
note: no `i` flag, case-sensitive:
`/<(?:h[3-6]|p)[^>]*>[\s\S]*?<\/(?:h[3-6]|p)>/`. -/
def reBlockHeading : Re :=
  reSeq [.lit "<".data false,
    .alt (reSeq [.lit "h".data false, .pc is36]) (.lit "p".data false),
    .star (.pc notGt) false, .lit ">".data false,
    .star (.pc anyCh) true,
    .lit "</".data false,
    .alt (reSeq [.lit "h".data false, .pc is36]) (.lit "p".data false),
    .lit ">".data false]

def isLetterEnye : Char → Bool :=
  fun c => ('a' ≤ c && c ≤ 'z') || ('A' ≤ c && c ≤ 'Z') || c == 'ñ' || c == 'Ñ'

/-- Lettered definitions (parser, line 412):
`/[a-zñ]\)\s*([^:]+):\s*([^.]+(?:\.[^a-zñ\)]+)*\.)/gi`. -/
def reDefLettered : Re :=
  reSeq [.pc isLetterEnye, .lit ")".data false, .star (.pc isJsSpace) false,
    .group 1 (rePlus (.pc (fun c => c != ':'))), .lit ":".data false,
    .star (.pc isJsSpace) false,
    .group 2 (reSeq [rePlus (.pc (fun c => c != '.')),
      .star (reSeq [.lit ".".data false,
        rePlus (.pc (fun c => !(isLetterEnye c || c == ')')))]) false,
      .lit ".".data false])]

/-- Quoted-term definitions (parser, line 424) — no `i` flag:
`/[«"]([^»"]+)[»"]:\s*([^.]+(?:\.[^«"]+)*\.)/g`. -/
def reDefQuoted : Re :=
  reSeq [.pc (fun c => c == '«' || c == '"'),
    .group 1 (rePlus (.pc (fun c => !(c == '»' || c == '"')))),
    .pc (fun c => c == '»' || c == '"'), .lit ":".data false,
    .star (.pc isJsSpace) false,
    .group 2 (reSeq [rePlus (.pc (fun c => c != '.')),
      .star (reSeq [.lit ".".data false,
        rePlus (.pc (fun c => !(c == '«' || c == '"')))]) false,
      .lit ".".data false])]

/-- Numbered definitions (parser, line 440) — no `i` flag:
`/\d+\.\s*([^:]+):\s*([^.]+(?:\.[^0-9]+)*\.)/g`. -/
def reDefNumbered : Re :=
  reSeq [rePlus (.pc isDigitCh), .lit ".".data false, .star (.pc isJsSpace) false,
    .group 1 (rePlus (.pc (fun c => c != ':'))), .lit ":".data false,
    .star (.pc isJsSpace) false,
    .group 2 (reSeq [rePlus (.pc (fun c => c != '.')),
      .star (reSeq [.lit ".".data false,
        rePlus (.pc (fun c => !isDigitCh c))]) false,
      .lit ".".data false])]

/-! ## Parser data model (parser, lines 90-128) -/

structure ActIndexEntry where
  id : String
  title : String
  shortName : String
  status : String
  issuedDate : String
  inForceDate : String
  url : String
  description : Option String
  deriving Repr, DecidableEq

/-- A parsed provision.  The source field `section` is a Lean keyword and
is rendered here as `sectionLabel`; all other field names are kept. -/
structure ParsedProvision where
  provision_ref : String
  chapter : Option String
  sectionLabel : String
  title : String
  content : String
  deriving Repr, DecidableEq

structure ParsedDefinition where
  term : String
  definition : String
  source_provision : Option String
  deriving Repr, DecidableEq

structure ParsedAct where
  id : String
  type : String
  title : String
  title_en : String
  short_name : String
  status : String
  issued_date : String
  in_force_date : String
  url : String
  description : Option String
  provisions : List ParsedProvision
  definitions : List ParsedDefinition
  deriving Repr, DecidableEq

/-! ## `findChapterHeading` (parser, lines 173-204) -/

/-- The inner `while` loop of `findChapterHeading`: remember the last
match whose stripped text has length in (3, 300). -/
def lastGoodHeading : List RMatch → List Char → List Char
  | [], acc => acc
  | m :: rest, acc =>
    let text := stripHtml (capStr 1 m.caps)
    lastGoodHeading rest (if 3 < text.length ∧ text.length < 300 then text else acc)

/-- Scan backwards (bounded 10000-character window; `Nat` subtraction
clamps at zero exactly like `Math.max(0, articlePos - 10000)`) for the
most recent chapter/title heading. -/
def findChapterHeading (html : List Char) (articlePos : Nat) : List Char :=
  let beforeArticle := substrL html (articlePos - 10000) articlePos
  let h1 := lastGoodHeading (allMatches reChapA beforeArticle) []
  if h1 ≠ [] then h1
  else lastGoodHeading (allMatches reChapB beforeArticle) []

/-! ## Reference-key derivation (parser, lines 256-258 and 343-344) -/

/-- `num.toLowerCase().replace(/\s+/g, '')`. -/
def normalizeOrdinal (num : List Char) : List Char := stripWsL (jsLowerL num)

/-- `const provisionRef = `art${normalizedNum}``: lower-case the matched
ordinal, strip internal whitespace, prefix the literal tag. -/
def deriveProvisionRef (num : List Char) : List Char :=
  "art".data ++ normalizeOrdinal num

/-! ## `extractDefinitions` (parser, lines 393-453) -/

/-- The `(term, definition)` capture pairs of one pattern family over the
stripped text — the candidate matches. -/
def defCands (re : Re) (text : List Char) : List (List Char × List Char) :=
  (allMatches re text).map (fun m => (capStr 1 m.caps, capStr 2 m.caps))

/-- The pattern-1 `while` loop (lines 415-421): trim, bounds-check, push;
no deduplication. -/
def pushDefsNoDedup (src : List Char) :
    List (List Char × List Char) → List ParsedDefinition → List ParsedDefinition
  | [], defs => defs
  | c :: rest, defs =>
    let term := trimL c.1
    let dfn := trimL c.2
    let defs2 :=
      if 1 < term.length ∧ term.length < 100 ∧ 10 < dfn.length then
        defs ++ [{ term := String.mk term, definition := String.mk dfn,
                   source_provision := some (String.mk src) }]
      else defs
    pushDefsNoDedup src rest defs2

/-- The pattern-2/3 `while` loops (lines 425-437, 441-452): same bounds
check, but skip the push when a definition with a case-insensitively
equal term and the same source provision is already present. -/
def pushDefsDedup (src : List Char) :
    List (List Char × List Char) → List ParsedDefinition → List ParsedDefinition
  | [], defs => defs
  | c :: rest, defs =>
    let term := trimL c.1
    let dfn := trimL c.2
    let defs2 :=
      if 1 < term.length ∧ term.length < 100 ∧ 10 < dfn.length then
        if defs.any (fun d => decide (jsLowerL d.term.data = jsLowerL term) &&
            decide (d.source_provision = some (String.mk src))) then defs
        else defs ++ [{ term := String.mk term, definition := String.mk dfn,
                        source_provision := some (String.mk src) }]
      else defs
    pushDefsDedup src rest defs2

/-- Extract term definitions from a definitions article: strip the block,
then apply the three pattern families in sequence, appending to the
accumulated definitions of the whole document. -/
def extractDefinitions (articleHtml src : List Char)
    (defs0 : List ParsedDefinition) : List ParsedDefinition :=
  let text := stripHtml articleHtml
  let d1 := pushDefsNoDedup src (defCands reDefLettered text) defs0
  let d2 := pushDefsDedup src (defCands reDefQuoted text) d1
  pushDefsDedup src (defCands reDefNumbered text) d2

/-! ## `parseSpanishHtml` (parser, lines 206-367) -/

/-- Provisions and definitions accumulated so far. -/
structure PState where
  provisions : List ParsedProvision
  definitions : List ParsedDefinition
  deriving Repr, DecidableEq

/-- A fallback-strategy heading match (lines 232-240). -/
structure HeadingCand where
  num : List Char
  title : List Char
  pos : Nat
  deriving Repr, DecidableEq

/-- The provision record pushed for a matched article (lines 260-266 and
346-352). -/
def provisionOf (articleNum chapter title content : List Char) : ParsedProvision :=
  { provision_ref := String.mk (deriveProvisionRef articleNum),
    chapter := if chapter = [] then none else some (String.mk chapter),
    sectionLabel := String.mk (normalizeOrdinal articleNum),
    title := String.mk title,
    content := String.mk (content.take 12000) }

/-- Tail of the fallback-strategy loop body (lines 254-271): discard a
body under 5 characters, otherwise push the provision and, when the
title indicates definitions, extract them from the block.  All values
are pure, so computing them before the guards (as this combinator's
caller does) is observationally identical to the source's lazy order. -/
def stepHeadCore (st : PState) (blockHtml chapter num title content : List Char)
    (trigger : Bool) : PState :=
  if content.length < 5 then st
  else
    ⟨st.provisions ++ [provisionOf num chapter title content],
      if trigger then
        extractDefinitions blockHtml (deriveProvisionRef num) st.definitions
      else st.definitions⟩

/-- One iteration of the fallback-strategy loop (lines 242-272). -/
def stepHeading (html : List Char) (hm : HeadingCand) (endPos : Nat)
    (st : PState) : PState :=
  let blockHtml := substrL html hm.pos endPos
  let bodyHtml := replaceFirstRe reBlockHeading [] blockHtml
  let content := stripHtml bodyHtml
  let chapter := findChapterHeading html hm.pos
  let trigger := containsL (jsLowerL hm.title) "definicion".data ||
    containsL (jsLowerL hm.title) "definición".data
  stepHeadCore st blockHtml chapter hm.num hm.title content trigger

def processHeadings (html : List Char) :
    List HeadingCand → PState → PState
  | [], st => st
  | hm :: rest, st =>
    let endPos := match rest with
      | [] => html.length
      | hm2 :: _ => hm2.pos
    processHeadings html rest (stepHeading html hm endPos st)

/-- An `.articulo` container start (lines 221-226). -/
structure ArtStart where
  id : List Char
  pos : Nat
  deriving Repr, DecidableEq

/-- Tail of the standard-strategy loop body (lines 326-363): skip when no
article ordinal was determined, discard a body under 5 characters,
otherwise push the provision and, when the definition-indicating
keywords match, extract definitions from the article block.  As with
`stepHeadCore`, the caller computes the pure values up front. -/
def stepArtCore (st : PState) (articleHtml chapter articleNum title content : List Char)
    (trigger : Bool) : PState :=
  if articleNum = [] then st
  else if content.length < 5 then st
  else
    ⟨st.provisions ++ [provisionOf articleNum chapter title content],
      if trigger then
        extractDefinitions articleHtml (deriveProvisionRef articleNum) st.definitions
      else st.definitions⟩

/-- One iteration of the standard-strategy loop (lines 278-364).
`nextPos` is the position of the following container, when any. -/
def stepArticulo (html : List Char) (a : ArtStart) (nextPos : Option Nat)
    (st : PState) : PState :=
  let startPos := a.pos
  let endPos : Int := match nextPos with
    | some p => (p : Int)
    | none =>
      match indexOfFromL html "</body>".data startPos with
      | some p => (p : Int)
      | none => -1
  let actualEnd : Nat := if (startPos : Int) < endPos then endPos.toNat else html.length
  let articleHtml := substrL html startPos actualEnd
  let headingMatch := searchFirst reH45 articleHtml
  let numTitle : List Char × List Char :=
    match headingMatch with
    | some m =>
      let headingText := stripHtml (capStr 1 m.caps)
      let articleNum :=
        match searchFirst reNum headingText with
        | some nm => stripWsL (trimL (capStr 1 nm.caps))
        | none => []
      let title :=
        match searchFirst reTitle headingText with
        | some tm => (trimL (capStr 1 tm.caps)).dropWhile (fun c => c == '.' || isJsSpace c)
        | none => []
      (articleNum, title)
    | none => ([], [])
  let title := numTitle.2
  let articleNum :=
    if numTitle.1 = [] ∧ a.id ≠ [] then
      match searchFirst reIdNum a.id with
      | some im => capStr 1 im.caps
      | none => []
    else numTitle.1
  let contentHtml :=
    match headingMatch with
    | some m =>
      match indexOfFromL articleHtml m.matched 0 with
      | some i => articleHtml.drop (i + m.matched.length)
      | none => articleHtml.drop (m.matched.length - 1)
    | none => articleHtml
  let content := stripHtml contentHtml
  let chapter := findChapterHeading html startPos
  let lt := jsLowerL title
  let lc := jsLowerL content
  let trigger :=
    containsL lt "definicion".data || containsL lt "definición".data ||
    containsL lt "conceptos".data || containsL lc "a los efectos de".data ||
    containsL lc "se entenderá por".data
  stepArtCore st articleHtml chapter articleNum title content trigger

def processArticulos (html : List Char) :
    List ArtStart → PState → PState
  | [], st => st
  | a :: rest, st =>
    let nextPos : Option Nat := match rest with
      | [] => none
      | a2 :: _ => some a2.pos
    processArticulos html rest (stepArticulo html a nextPos st)

/-- Build the `ParsedAct` result object (parser, lines 369-391). -/
def buildResult (act : ActIndexEntry) (provisions : List ParsedProvision)
    (definitions : List ParsedDefinition) : ParsedAct :=
  { id := act.id, type := "statute", title := act.title, title_en := "",
    short_name := act.shortName, status := act.status,
    issued_date := act.issuedDate, in_force_date := act.inForceDate,
    url := act.url, description := act.description,
    provisions := provisions, definitions := definitions }

/-- Parse BOE HTML to extract provisions from a Spanish statute page:
strategy 1 processes `.articulo` container blocks; when none are found,
strategy 2 scans article headings directly. -/
def parseSpanishHtml (html : List Char) (act : ActIndexEntry) : ParsedAct :=
  let articuloStarts := (allMatches reArticulo html).map
    (fun m => ({ id := capStr 1 m.caps, pos := m.pos } : ArtStart))
  if articuloStarts.length = 0 then
    let headingMatches := (allMatches reArtHeading html).map (fun m =>
      ({ num := stripWsL (trimL (capStr 1 m.caps)),
         title := stripHtml (capStr 2 m.caps), pos := m.pos } : HeadingCand))
    let st := processHeadings html headingMatches ⟨[], []⟩
    buildResult act st.provisions st.definitions
  else
    let st := processArticulos html articuloStarts ⟨[], []⟩
    buildResult act st.provisions st.definitions

/-! ## Rate-limited fetcher (fetcher source, lines 14-71)

The fetcher is modelled on an idealised millisecond clock: `Date.now()`
is the current instant, `setTimeout(f, ms)` resumes exactly `ms` later,
and each attempt's HTTP response is described by two functions giving the
status and the duration (from request start to response) of attempt `i`.
The module-level `let lastRequestTime = 0` is the `FetchState`. -/

/-- The fetcher's only shared mutable state: `lastRequestTime`. -/
structure FetchState where
  lastRequestTime : Nat
  deriving Repr, DecidableEq

/-- `rateLimit()` (lines 19-26): given the current instant, return the
updated state and the instant at which the caller proceeds (after the
`MIN_DELAY_MS - elapsed` sleep when the elapsed time is under 500 ms).
`Nat` subtraction matches `now - lastRequestTime` because the clock never
runs backwards. -/
def rateLimit (st : FetchState) (now : Nat) : FetchState × Nat :=
  let elapsed := now - st.lastRequestTime
  let tStart := if elapsed < 500 then now + (500 - elapsed) else now
  (⟨tStart⟩, tStart)

/-- Outcome of the retry loop: `ok status` models returning a
`FetchResult` whose `status` field is the given status; `exhausted`
models the `throw new Error('Failed to fetch … after … retries')`
statement after the loop. -/
inductive FetchOutcome where
  | ok (status : Nat)
  | exhausted
  deriving Repr, DecidableEq

/-- Result of one `fetchWithRateLimit` call: final shared state, the
instant the call returns, the start instants of every HTTP request it
issued (in order), and the outcome. -/
structure FetchRun where
  state : FetchState
  tEnd : Nat
  starts : List Nat
  outcome : FetchOutcome
  deriving Repr, DecidableEq

/-- The `for (let attempt = 0; attempt <= maxRetries; attempt++)` loop
(lines 42-68).  The first argument is the number of loop iterations still
permitted by the loop condition (`maxRetries + 1 - attempt`); reaching
`0` is exactly the loop condition failing, which falls through to the
`throw` on line 70.  On a 429/5xx status with `attempt < maxRetries` the
loop sleeps `2^(attempt+1) * 1000` ms and continues; otherwise it reads
the body and returns the `FetchResult`. -/
def fetchLoop (statusOf durOf : Nat → Nat) (maxRetries : Nat) :
    Nat → Nat → Nat → List Nat → Nat × List Nat × FetchOutcome
  | 0, _, tNow, starts => (tNow, starts, .exhausted)
  | rem + 1, attempt, tNow, starts =>
    let s := statusOf attempt
    let tResp := tNow + durOf attempt
    if (s = 429 ∨ 500 ≤ s) ∧ attempt < maxRetries then
      fetchLoop statusOf durOf maxRetries rem (attempt + 1)
        (tResp + 2 ^ (attempt + 1) * 1000) (starts ++ [tNow])
    else (tResp, starts ++ [tNow], .ok s)

/-- `fetchWithRateLimit(url, maxRetries = 3)` (lines 39-71): one
`rateLimit()` call before the retry loop — and nowhere inside it. -/
def fetchWithRateLimit (st : FetchState) (now : Nat)
    (statusOf durOf : Nat → Nat) (maxRetries : Nat) : FetchRun :=
  let rl := rateLimit st now
  let r := fetchLoop statusOf durOf maxRetries (maxRetries + 1) 0 rl.2 []
  ⟨rl.1, r.1, r.2.1, r.2.2⟩

/-! ## Census builder (scripts/census.ts) -/

/-- A `{ codigo, texto }` pair of the BOE API. -/
structure CodTex where
  codigo : String
  texto : String
  deriving Repr, DecidableEq

/-- An item of the BOE consolidated-legislation catalog
(census.ts, lines 56-73). -/
structure BoeItem where
  fecha_actualizacion : String
  identificador : String
  ambito : CodTex
  departamento : CodTex
  rango : CodTex
  fecha_disposicion : Option String
  numero_oficial : Option String
  titulo : String
  diario : String
  fecha_publicacion : String
  diario_numero : String
  fecha_vigencia : Option String
  vigencia_agotada : String
  estado_consolidacion : CodTex
  url_eli : Option String
  url_html_consolidada : String
  deriving Repr, DecidableEq

/-- `mapStatus` (census.ts, lines 187-191): map the BOE expiry flag and
consolidation-status code to the standard status string. -/
def mapStatus (item : BoeItem) : String :=
  if item.vigencia_agotada = "S" then "repealed"
  else if item.estado_consolidacion.codigo = "4" then "amended"
  else "in_force"

/-- The fields the census and ingest scripts read back from a seed JSON
file (`seed.provisions?.length ?? 0`, `seed.ingestion_date ?? null`);
both are optional because `JSON.parse` returns untyped data. -/
structure SeedJson where
  provisions : Option (List ParsedProvision)
  ingestion_date : Option String
  deriving Repr, DecidableEq

/-- What reading a seed file yields: no file, or a file whose contents
either fail to parse as JSON (the `catch` branch) or parse to a seed. -/
inductive SeedFileRead where
  | absent
  | present (parse : Except String SeedJson)
  deriving Repr

/-- Result record of `checkIngested`. -/
structure CheckIngestedResult where
  ingested : Bool
  provisionCount : Nat
  ingestionDate : Option String
  deriving Repr, DecidableEq

/-- `checkIngested` (census.ts, lines 211-226): a parse failure is caught
and reported as not ingested; a missing file likewise. -/
def checkIngested : SeedFileRead → CheckIngestedResult
  | .absent => ⟨false, 0, none⟩
  | .present (.error _) => ⟨false, 0, none⟩
  | .present (.ok seed) =>
    ⟨true, (seed.provisions.map (fun l => l.length)).getD 0, seed.ingestion_date⟩

/-- A census worklist entry (census.ts lines 75-100, ingest script lines
610-635; `classification` is one of the strings `ingestable`,
`not_ingestable`, `skip`). -/
structure CensusEntry where
  id : String
  title : String
  identifier : String
  url : String
  status : String
  category : String
  classification : String
  skip_reason : Option String
  ingested : Bool
  provision_count : Nat
  ingestion_date : Option String
  rango_codigo : String
  rango : String
  ambito_codigo : String
  ambito : String
  departamento : String
  fecha_disposicion : String
  fecha_publicacion : String
  fecha_vigencia : String
  vigencia_agotada : String
  estado_consolidacion_codigo : String
  estado_consolidacion : String
  url_eli : String
  url_html_consolidada : String
  deriving Repr, DecidableEq

/-- The census summary (breakdown records are modelled as association
lists). -/
structure CensusSummary where
  total_laws : Nat
  total_ingestable : Nat
  total_not_ingestable : Nat
  total_skip : Nat
  total_ingested : Nat
  total_provisions : Nat
  scope_breakdown : List (String × Nat)
  rango_breakdown : List (String × Nat)
  deriving Repr, DecidableEq

structure Census where
  schema_version : String
  jurisdiction : String
  jurisdiction_name : String
  portal : String
  portal_url : String
  generated : String
  summary : CensusSummary
  laws : List CensusEntry
  deriving Repr, DecidableEq

/-! ## Ingestion orchestrator (census-driven ingest script) -/

/-- `saveCensus` (ingest script, lines 729-735): recompute the summary
cache from the entries, then persist; the persisted document is the
returned value. -/
def saveCensus (census : Census) : Census :=
  { census with summary :=
    { census.summary with
      total_ingested := (census.laws.filter (fun l => l.ingested)).length,
      total_provisions := census.laws.foldl (fun sum l => sum + l.provision_count) 0 } }

/-- `censusEntryToAct` (ingest script, lines 693-704). -/
def censusEntryToAct (entry : CensusEntry) : ActIndexEntry :=
  { id := entry.id, title := entry.title, shortName := entry.id,
    status := entry.status, issuedDate := entry.fecha_disposicion,
    inForceDate := if entry.fecha_vigencia ≠ "" then entry.fecha_vigencia
      else entry.fecha_disposicion,
    url := if entry.url_html_consolidada ≠ "" then entry.url_html_consolidada
      else entry.url,
    description := some (entry.rango ++ " — " ++ entry.departamento) }

/-- `createFallbackSeed` (ingest script, lines 709-724): a minimal seed
with just metadata — no provisions, no definitions. -/
def createFallbackSeed (act : ActIndexEntry) : ParsedAct :=
  { id := act.id, type := "statute", title := act.title, title_en := "",
    short_name := act.shortName, status := act.status,
    issued_date := act.issuedDate, in_force_date := act.inForceDate,
    url := act.url, description := act.description,
    provisions := [], definitions := [] }

/-- Per-entry result statuses of the run report. -/
inductive ResStatus where
  | success
  | skipped
  | failed
  | fallback
  deriving Repr, DecidableEq

structure IngestionResult where
  id : String
  provisions : Nat
  definitions : Nat
  status : ResStatus
  error : Option String
  deriving Repr, DecidableEq

/-- What `await fetchWithRateLimit(act.url)` produced for an entry: a
settled `FetchResult` (status and body) or a thrown error (network
failure), which the orchestrator's `catch` receives. -/
inductive FetchCall where
  | result (status : Nat) (body : List Char)
  | thrown (msg : String)
  deriving Repr, DecidableEq

/-- All inputs one iteration of the orchestrator's per-entry loop reads
from the outside world (flags, worklist entry, filesystem probes, fetch
outcome, today's date). -/
structure StepInput where
  force : Bool
  skipFetch : Bool
  entry : CensusEntry
  seedExists : Bool
  existingSeedParse : Except String SeedJson
  sourceExists : Bool
  cachedHtml : List Char
  fetch : FetchCall
  today : String
  deriving Repr

/-- Effects of one iteration: the updated worklist entry, the seed file
written (when any), the raw HTML cached (when any), and the report
entry. -/
structure StepOutput where
  entry : CensusEntry
  seedWritten : Option ParsedAct
  sourceWritten : Option (List Char)
  result : IngestionResult
  deriving Repr, DecidableEq

/-- `censusEntry.ingestion_date || new Date().toISOString().slice(0, 10)`:
JavaScript `||` keeps a truthy existing date (`null` and `''` are falsy). -/
def jsDateOr (old : Option String) (today : String) : Option String :=
  match old with
  | some s => if s = "" then some today else some s
  | none => some today

/-- One iteration of the orchestrator's `for (const entry of pending)`
loop (census-driven ingest script, lines 812-916): resume-skip when a
seed exists and `--force` is off; otherwise fetch (or reuse cached
markup), write a fallback seed on a non-200 status or a thrown error,
else parse and write the full seed; in every branch the census entry is
updated in place and a result is recorded — the loop never aborts. -/
def processEntry (inp : StepInput) : StepOutput :=
  let act := censusEntryToAct inp.entry
  if ¬inp.force ∧ inp.seedExists then
    match inp.existingSeedParse with
    | .ok seed =>
      let provCount := (seed.provisions.map (fun l => l.length)).getD 0
      let entry2 := { inp.entry with
        ingested := true, provision_count := provCount,
        ingestion_date := jsDateOr inp.entry.ingestion_date inp.today }
      ⟨entry2, none, none, ⟨inp.entry.id, provCount, 0, .skipped, none⟩⟩
    | .error _ =>
      ⟨inp.entry, none, none, ⟨inp.entry.id, 0, 0, .skipped, none⟩⟩
  else
    if inp.sourceExists ∧ inp.skipFetch then
      let parsed := parseSpanishHtml inp.cachedHtml act
      let entry2 := { inp.entry with
        ingested := true, provision_count := parsed.provisions.length,
        ingestion_date := some inp.today }
      ⟨entry2, some parsed, none,
        ⟨inp.entry.id, parsed.provisions.length, parsed.definitions.length, .success, none⟩⟩
    else
      match inp.fetch with
      | .thrown msg =>
        let fallback := createFallbackSeed act
        let entry2 := { inp.entry with
          ingested := true, provision_count := 0, ingestion_date := some inp.today }
        ⟨entry2, some fallback, none, ⟨inp.entry.id, 0, 0, .failed, some msg⟩⟩
      | .result status body =>
        if status ≠ 200 then
          let fallback := createFallbackSeed act
          let entry2 := { inp.entry with
            ingested := true, provision_count := 0, ingestion_date := some inp.today }
          ⟨entry2, some fallback, none,
            ⟨inp.entry.id, 0, 0, .fallback, some ("HTTP " ++ toString status)⟩⟩
        else
          let parsed := parseSpanishHtml body act
          let entry2 := { inp.entry with
            ingested := true, provision_count := parsed.provisions.length,
            ingestion_date := some inp.today }
          ⟨entry2, some parsed, some body,
            ⟨inp.entry.id, parsed.provisions.length, parsed.definitions.length, .success, none⟩⟩

/-- The orchestrator's loop over the pending worklist: every entry is
processed and contributes exactly one result — per-item failures never
abort the run. -/
def runPending (inputs : List StepInput) : List IngestionResult :=
  inputs.map (fun i => (processEntry i).result)

/-! ## Concrete inputs used by witnesses and counterexamples -/

/-- A catalog item with neither expiry flag nor outdated-consolidation
code. -/
def itemInForce : BoeItem :=
  { fecha_actualizacion := "20240101", identificador := "BOE-A-2020-1",
    ambito := ⟨"1", "Estatal"⟩, departamento := ⟨"10", "Jefatura del Estado"⟩,
    rango := ⟨"1300", "Ley"⟩, fecha_disposicion := some "20200101",
    numero_oficial := some "1/2020", titulo := "Ley 1/2020", diario := "BOE",
    fecha_publicacion := "20200102", diario_numero := "2",
    fecha_vigencia := some "20200103", vigencia_agotada := "N",
    estado_consolidacion := ⟨"3", "Finalizado"⟩, url_eli := none,
    url_html_consolidada := "https://www.boe.es/buscar/act.php?id=BOE-A-2020-1" }

/-- The same item with the expiry flag set and an outdated
consolidation-status code — both at once, to show expiry wins. -/
def itemRepealed : BoeItem :=
  { itemInForce with
    vigencia_agotada := "S",
    estado_consolidacion := ⟨"4", "Desactualizado"⟩ }

/-- The same item, not expired but with the outdated code. -/
def itemAmended : BoeItem :=
  { itemInForce with estado_consolidacion := ⟨"4", "Desactualizado"⟩ }

/-- A pending, ingestable worklist entry. -/
def wEntry : CensusEntry :=
  { id := "BOE-A-2020-1", title := "Ley 1/2020", identifier := "BOE-A-2020-1",
    url := "https://www.boe.es/buscar/act.php?id=BOE-A-2020-1",
    status := "in_force", category := "Ley", classification := "ingestable",
    skip_reason := none, ingested := false, provision_count := 0,
    ingestion_date := none, rango_codigo := "1300", rango := "Ley",
    ambito_codigo := "1", ambito := "Estatal",
    departamento := "Jefatura del Estado", fecha_disposicion := "2020-01-01",
    fecha_publicacion := "2020-01-02", fecha_vigencia := "2020-01-03",
    vigencia_agotada := "N", estado_consolidacion_codigo := "3",
    estado_consolidacion := "Finalizado", url_eli := "",
    url_html_consolidada := "https://www.boe.es/buscar/act.php?id=BOE-A-2020-1" }

/-- One orchestrator iteration for `wEntry`: no seed yet, no cached
markup, and the fetch settles with HTTP 404. -/
def wInput404 : StepInput :=
  { force := false, skipFetch := false, entry := wEntry, seedExists := false,
    existingSeedParse := Except.error "no file", sourceExists := false,
    cachedHtml := [], fetch := .result 404 "Not Found".data,
    today := "2026-10-11" }

/-- Content-length bound every parsed provision must satisfy (claim C4). -/
def provisionContentOK (p : ParsedProvision) : Bool :=
  decide (p.content.length ≤ 12000)

/-- Every definition's source provision points at some provision of the
same state (claim C9). -/
def defsLinked (st : PState) : Bool :=
  st.definitions.all (fun d =>
    st.provisions.any (fun p => decide (d.source_provision = some p.provision_ref)))

/-- The bounds the source imposes before retaining a definition, read off
the stored (trimmed) fields: term length in [2, 99], definition length
≥ 11 (the code tests `definition.length > 10`). -/
def defBoundsOK (d : ParsedDefinition) : Bool :=
  decide (2 ≤ d.term.length ∧ d.term.length ≤ 99 ∧ 11 ≤ d.definition.length)

/-- The same bounds on a raw candidate `(term, definition)` capture pair,
after trimming. -/
def candBoundsOK (c : List Char × List Char) : Bool :=
  decide (1 < (trimL c.1).length ∧ (trimL c.1).length < 100 ∧
    10 < (trimL c.2).length)

/-- The definition record a retained candidate becomes. -/
def defOfCand (src : List Char) (c : List Char × List Char) : ParsedDefinition :=
  { term := String.mk (trimL c.1), definition := String.mk (trimL c.2),
    source_provision := some (String.mk src) }

/-- Metadata for the worked examples below. -/
def exampleAct : ActIndexEntry :=
  { id := "X", title := "T", shortName := "S", status := "in_force",
    issuedDate := "d1", inForceDate := "d2", url := "u", description := none }

/-! ## Helper lemmas -/

theorem length_strMk (l : List Char) : (String.mk l).length = l.length := rfl

theorem foldl_add_eq_sum {α : Type} (f : α → Nat) (l : List α) (n : Nat) :
    l.foldl (fun sum x => sum + f x) n = n + (l.map f).sum := by
  induction l generalizing n with
  | nil => simp
  | cons a t ih => simp [ih, Nat.add_assoc]

/-! ## Claim theorems -/

/-- C1.  On a URL whose every response is HTTP 503 (each attempt taking
100 ms) with the default `maxRetries = 3`, `fetchWithRateLimit` makes
exactly `maxRetries + 1 = 4` attempts — and then RETURNS the
`FetchResult` with status 503 rather than failing: on the last retryable
attempt the guard `attempt < maxRetries` is false, so control falls
through to the normal `return`, and the `throw new Error('Failed to
fetch … after … retries')` after the loop (the claimed `FetchExhausted`
failure) is unreachable. -/
theorem C1_exhausted_retries_return_result :
    fetchWithRateLimit ⟨0⟩ 1000 (fun _ => 503) (fun _ => 100) 3 =
      ⟨⟨1000⟩, 15400, [1000, 3100, 7200, 15300], .ok 503⟩ ∧
    (fetchWithRateLimit ⟨0⟩ 1000 (fun _ => 503) (fun _ => 100) 3).starts.length
      = 3 + 1 ∧
    (fetchWithRateLimit ⟨0⟩ 1000 (fun _ => 503) (fun _ => 100) 3).outcome
      ≠ .exhausted := by
  decide

/-- C3.  After every invocation of `saveCensus`, the persisted summary
satisfies `total_ingested = count of entries with ingested = true` and
`total_provisions = sum of the entries' provision counts`. -/
theorem C3_summary_recomputed (census : Census) :
    (saveCensus census).summary.total_ingested =
      (saveCensus census).laws.countP (fun l => l.ingested) ∧
    (saveCensus census).summary.total_provisions =
      ((saveCensus census).laws.map (fun l => l.provision_count)).sum := by
  constructor
  · rw [List.countP_eq_length_filter]
    rfl
  · show census.laws.foldl (fun sum l => sum + l.provision_count) 0 = _
    rw [foldl_add_eq_sum]
    exact Nat.zero_add _

set_option maxRecDepth 8000 in
/-- C6 counterexample.  The heading `Artículo 1 BIS. Objeto` really does
produce the ordinal `1BIS` through the case-insensitive ordinal pattern
(first conjunct); `1BIS` and `1bis` are distinct ordinals, yet derive
the same reference key `art1bis`: the derivation is not injective on
ordinals. -/
theorem C6_counterexample :
    (match searchFirst reNum "Artículo 1 BIS. Objeto".data with
      | some nm => stripWsL (trimL (capStr 1 nm.caps))
      | none => []) = "1BIS".data ∧
    deriveProvisionRef "1BIS".data = deriveProvisionRef "1bis".data ∧
    "1BIS".data ≠ "1bis".data := by
  decide

/-- C6 (amended).  Reference-key derivation is deterministic, and two
ordinals derive the same key exactly when they agree after lower-casing
and whitespace-stripping — so it is injective on normalized (lower-case,
whitespace-free) ordinals, though not on all ordinals. -/
theorem C6_key_derivation_deterministic_and_injective_on_normalized :
    (∀ num : List Char, deriveProvisionRef num = deriveProvisionRef num) ∧
    ∀ a b : List Char,
      deriveProvisionRef a = deriveProvisionRef b ↔
        normalizeOrdinal a = normalizeOrdinal b := by
  refine ⟨fun _ => rfl, fun a b => ⟨fun h => ?_, fun h => ?_⟩⟩
  · exact List.append_cancel_left h
  · show "art".data ++ normalizeOrdinal a = "art".data ++ normalizeOrdinal b
    rw [h]

/-- C7.  The status mapping returns `repealed` whenever the expiry flag
`vigencia_agotada` is `S`, regardless of the consolidation-status code;
otherwise `amended` when the code is `4`; otherwise `in_force`. -/
theorem C7_status_mapping (item : BoeItem) :
    (item.vigencia_agotada = "S" → mapStatus item = "repealed") ∧
    (item.vigencia_agotada ≠ "S" → item.estado_consolidacion.codigo = "4" →
      mapStatus item = "amended") ∧
    (item.vigencia_agotada ≠ "S" → item.estado_consolidacion.codigo ≠ "4" →
      mapStatus item = "in_force") := by
  refine ⟨fun h => ?_, fun h1 h2 => ?_, fun h1 h2 => ?_⟩
  · simp [mapStatus, h]
  · simp [mapStatus, h1, h2]
  · simp [mapStatus, h1, h2]

/-- C7 witness: the three branches at concrete catalog items; in
particular `itemRepealed` carries consolidation code `4`, yet maps to
`repealed`. -/
theorem C7_status_mapping_witness :
    mapStatus itemRepealed = "repealed" ∧
    mapStatus itemAmended = "amended" ∧
    mapStatus itemInForce = "in_force" :=
  ⟨(C7_status_mapping itemRepealed).1 rfl,
   (C7_status_mapping itemAmended).2.1 (by decide) rfl,
   (C7_status_mapping itemInForce).2.2 (by decide) (by decide)⟩

/-- C8.  Two sequential `fetchWithRateLimit` calls in which the first
retries three times on 503 (each response arriving after 100 ms): the
shared throttle is consulted once per call, before the retry loop, and
`lastRequestTime` is never updated for the retry attempts — so the
second call's request starts 100 ms after the first call's fourth
attempt, violating the 500 ms minimum start-to-start spacing the fetcher
documents. -/
theorem C8_retry_attempts_bypass_throttle :
    (fetchWithRateLimit ⟨0⟩ 1000 (fun _ => 503) (fun _ => 100) 3).starts =
      [1000, 3100, 7200, 15300] ∧
    (fetchWithRateLimit
      (fetchWithRateLimit ⟨0⟩ 1000 (fun _ => 503) (fun _ => 100) 3).state
      (fetchWithRateLimit ⟨0⟩ 1000 (fun _ => 503) (fun _ => 100) 3).tEnd
      (fun _ => 200) (fun _ => 100) 3).starts = [15400] ∧
    15400 - 15300 < 500 := by
  decide

/-- C10.  When a seed file exists for an item but its contents fail to
parse as JSON, `checkIngested` catches the error and reports the item as
not ingested (`ingested = false`, `provisionCount = 0`,
`ingestionDate = null`) instead of aborting or reporting it ingested. -/
theorem C10_unparsable_seed_reported_not_ingested (e : String) :
    checkIngested (SeedFileRead.present (Except.error e)) =
      ⟨false, 0, none⟩ :=
  rfl

/-- C2.  Whenever an orchestrator iteration reaches the fetch (not
resume-skipped, not the cached-markup path) and the fetch settles with a
non-200 status, it writes the metadata-only fallback seed (which has
`provisions = []` and `definitions = []`), marks the census entry
`ingested = true` with `provision_count = 0` and a non-null
`ingestion_date`, records a `fallback` result — and the run continues:
every pending entry contributes exactly one result. -/
theorem C2_non200_fallback_seed_and_census_update :
    (∀ inp : StepInput, (inp.force = true ∨ inp.seedExists = false) →
      ¬(inp.sourceExists = true ∧ inp.skipFetch = true) →
      ∀ status body, inp.fetch = .result status body → status ≠ 200 →
      (processEntry inp).seedWritten =
        some (createFallbackSeed (censusEntryToAct inp.entry)) ∧
      (createFallbackSeed (censusEntryToAct inp.entry)).provisions = [] ∧
      (createFallbackSeed (censusEntryToAct inp.entry)).definitions = [] ∧
      (processEntry inp).entry.ingested = true ∧
      (processEntry inp).entry.provision_count = 0 ∧
      (processEntry inp).entry.ingestion_date = some inp.today ∧
      (processEntry inp).result.status = .fallback) ∧
    ∀ inputs : List StepInput, (runPending inputs).length = inputs.length := by
  constructor
  · intro inp h1 h2 status body hf hs
    have hskip : ¬(inp.force = false ∧ inp.seedExists = true) := by
      rcases h1 with h | h <;> simp [h]
    simp [processEntry, hskip, h2, hf, hs, createFallbackSeed]
  · intro inputs
    simp [runPending]

/-- C2 witness: the concrete pending entry `wEntry` whose fetch returns
HTTP 404. -/
theorem C2_non200_fallback_witness :
    ((processEntry wInput404).seedWritten =
        some (createFallbackSeed (censusEntryToAct wInput404.entry)) ∧
      (createFallbackSeed (censusEntryToAct wInput404.entry)).provisions = [] ∧
      (createFallbackSeed (censusEntryToAct wInput404.entry)).definitions = [] ∧
      (processEntry wInput404).entry.ingested = true ∧
      (processEntry wInput404).entry.provision_count = 0 ∧
      (processEntry wInput404).entry.ingestion_date = some wInput404.today ∧
      (processEntry wInput404).result.status = .fallback) ∧
    (runPending [wInput404]).length = [wInput404].length :=
  ⟨C2_non200_fallback_seed_and_census_update.1 wInput404 (Or.inr rfl)
      (by decide) 404 "Not Found".data rfl (by decide),
    C2_non200_fallback_seed_and_census_update.2 [wInput404]⟩

theorem all_contentOK_append {l : List ParsedProvision} {p : ParsedProvision}
    (h : l.all provisionContentOK = true) (hp : provisionContentOK p = true) :
    (l ++ [p]).all provisionContentOK = true := by
  simp [List.all_append, h, hp]

theorem provisionContentOK_mk (ref : String) (ch : Option String)
    (sec tit : String) (content : List Char) :
    provisionContentOK ⟨ref, ch, sec, tit, String.mk (content.take 12000)⟩ = true := by
  show decide ((String.mk (content.take 12000)).length ≤ 12000) = true
  simp only [decide_eq_true_eq, length_strMk, List.length_take]
  exact Nat.min_le_left _ _

theorem provisionContentOK_provisionOf (articleNum chapter title content : List Char) :
    provisionContentOK (provisionOf articleNum chapter title content) = true :=
  provisionContentOK_mk _ _ _ _ _

theorem stepHeadCore_contentOK (st : PState)
    (blockHtml chapter num title content : List Char) (trigger : Bool)
    (h : st.provisions.all provisionContentOK = true) :
    ((stepHeadCore st blockHtml chapter num title content trigger).provisions.all
      provisionContentOK) = true := by
  unfold stepHeadCore
  split
  · exact h
  · exact all_contentOK_append h (provisionContentOK_provisionOf _ _ _ _)

theorem stepArtCore_contentOK (st : PState)
    (articleHtml chapter articleNum title content : List Char) (trigger : Bool)
    (h : st.provisions.all provisionContentOK = true) :
    ((stepArtCore st articleHtml chapter articleNum title content trigger).provisions.all
      provisionContentOK) = true := by
  unfold stepArtCore
  split
  · exact h
  · split
    · exact h
    · exact all_contentOK_append h (provisionContentOK_provisionOf _ _ _ _)

theorem stepHeading_contentOK (html : List Char) (hm : HeadingCand)
    (endPos : Nat) (st : PState)
    (h : st.provisions.all provisionContentOK = true) :
    ((stepHeading html hm endPos st).provisions.all provisionContentOK) = true :=
  stepHeadCore_contentOK st _ _ _ _ _ _ h

theorem processHeadings_contentOK (html : List Char) (cands : List HeadingCand) :
    ∀ st : PState, st.provisions.all provisionContentOK = true →
    ((processHeadings html cands st).provisions.all provisionContentOK) = true := by
  induction cands with
  | nil => intro st h; exact h
  | cons hm rest ih =>
    intro st h
    simp only [processHeadings]
    exact ih _ (stepHeading_contentOK _ _ _ _ h)

theorem stepArticulo_contentOK (html : List Char) (a : ArtStart)
    (nextPos : Option Nat) (st : PState)
    (h : st.provisions.all provisionContentOK = true) :
    ((stepArticulo html a nextPos st).provisions.all provisionContentOK) = true :=
  stepArtCore_contentOK st _ _ _ _ _ _ h

theorem processArticulos_contentOK (html : List Char) (starts : List ArtStart) :
    ∀ st : PState, st.provisions.all provisionContentOK = true →
    ((processArticulos html starts st).provisions.all provisionContentOK) = true := by
  induction starts with
  | nil => intro st h; exact h
  | cons a rest ih =>
    intro st h
    simp only [processArticulos]
    exact ih _ (stepArticulo_contentOK _ _ _ _ h)

/-- C4.  For every input markup string and item metadata, every provision
in the result of `parseSpanishHtml` — from the primary `.articulo`
strategy or the heading-scan fallback alike — has a content of length at
most 12000, because both push sites truncate with
`content.substring(0, 12000)`. -/
theorem C4_provision_content_capped (html : List Char) (act : ActIndexEntry) :
    ((parseSpanishHtml html act).provisions.all provisionContentOK) = true := by
  simp only [parseSpanishHtml]
  split
  · exact processHeadings_contentOK _ _ _ rfl
  · exact processArticulos_contentOK _ _ _ rfl

theorem mem_pushDefsNoDedup (src : List Char) :
    ∀ (cands : List (List Char × List Char)) (defs : List ParsedDefinition)
      (d : ParsedDefinition), d ∈ pushDefsNoDedup src cands defs →
      d ∈ defs ∨ d.source_provision = some (String.mk src) := by
  intro cands
  induction cands with
  | nil => intro defs d hd; exact Or.inl hd
  | cons c rest ih =>
    intro defs d hd
    simp only [pushDefsNoDedup] at hd
    rcases ih _ d hd with hmem | hsrc
    · by_cases hc : 1 < (trimL c.1).length ∧ (trimL c.1).length < 100 ∧
          10 < (trimL c.2).length
      · rw [if_pos hc] at hmem
        rcases List.mem_append.mp hmem with h1 | h2
        · exact Or.inl h1
        · right
          rw [List.mem_singleton.mp h2]
      · rw [if_neg hc] at hmem
        exact Or.inl hmem
    · exact Or.inr hsrc

theorem mem_pushDefsDedup (src : List Char) :
    ∀ (cands : List (List Char × List Char)) (defs : List ParsedDefinition)
      (d : ParsedDefinition), d ∈ pushDefsDedup src cands defs →
      d ∈ defs ∨ d.source_provision = some (String.mk src) := by
  intro cands
  induction cands with
  | nil => intro defs d hd; exact Or.inl hd
  | cons c rest ih =>
    intro defs d hd
    simp only [pushDefsDedup] at hd
    rcases ih _ d hd with hmem | hsrc
    · by_cases hc : 1 < (trimL c.1).length ∧ (trimL c.1).length < 100 ∧
          10 < (trimL c.2).length
      · rw [if_pos hc] at hmem
        by_cases hdup : (defs.any (fun d => decide (jsLowerL d.term.data = jsLowerL (trimL c.1)) &&
            decide (d.source_provision = some (String.mk src)))) = true
        · rw [if_pos hdup] at hmem
          exact Or.inl hmem
        · rw [if_neg hdup] at hmem
          rcases List.mem_append.mp hmem with h1 | h2
          · exact Or.inl h1
          · right
            rw [List.mem_singleton.mp h2]
      · rw [if_neg hc] at hmem
        exact Or.inl hmem
    · exact Or.inr hsrc

/-- Every definition `extractDefinitions` adds carries the source
provision reference it was called with. -/
theorem mem_extractDefinitions (a src : List Char)
    (defs0 : List ParsedDefinition) (d : ParsedDefinition)
    (hd : d ∈ extractDefinitions a src defs0) :
    d ∈ defs0 ∨ d.source_provision = some (String.mk src) := by
  simp only [extractDefinitions] at hd
  rcases mem_pushDefsDedup src _ _ d hd with h2 | h2
  · rcases mem_pushDefsDedup src _ _ d h2 with h1 | h1
    · exact mem_pushDefsNoDedup src _ _ d h1
    · exact Or.inr h1
  · exact Or.inr h2

theorem defsLinked_iff (st : PState) :
    defsLinked st = true ↔
      ∀ d ∈ st.definitions, ∃ p ∈ st.provisions,
        d.source_provision = some p.provision_ref := by
  simp [defsLinked, List.all_eq_true, List.any_eq_true]

theorem stepHeadCore_defsLinked (st : PState)
    (blockHtml chapter num title content : List Char) (trigger : Bool)
    (h : defsLinked st = true) :
    defsLinked (stepHeadCore st blockHtml chapter num title content trigger) = true := by
  rw [defsLinked_iff] at h
  rw [defsLinked_iff]
  unfold stepHeadCore
  split
  · exact h
  · intro d hd
    simp only at hd
    by_cases ht : trigger = true
    · rw [if_pos ht] at hd
      rcases mem_extractDefinitions _ _ _ d hd with hold | hsrc
      · obtain ⟨p, hp, he⟩ := h d hold
        exact ⟨p, List.mem_append_left _ hp, he⟩
      · refine ⟨provisionOf num chapter title content,
          List.mem_append_right _ (List.mem_singleton_self _), ?_⟩
        rw [hsrc]
        rfl
    · rw [if_neg ht] at hd
      obtain ⟨p, hp, he⟩ := h d hd
      exact ⟨p, List.mem_append_left _ hp, he⟩

theorem stepArtCore_defsLinked (st : PState)
    (articleHtml chapter articleNum title content : List Char) (trigger : Bool)
    (h : defsLinked st = true) :
    defsLinked (stepArtCore st articleHtml chapter articleNum title content trigger) = true := by
  rw [defsLinked_iff] at h
  rw [defsLinked_iff]
  unfold stepArtCore
  split
  · exact h
  · split
    · exact h
    · intro d hd
      simp only at hd
      by_cases ht : trigger = true
      · rw [if_pos ht] at hd
        rcases mem_extractDefinitions _ _ _ d hd with hold | hsrc
        · obtain ⟨p, hp, he⟩ := h d hold
          exact ⟨p, List.mem_append_left _ hp, he⟩
        · refine ⟨provisionOf articleNum chapter title content,
            List.mem_append_right _ (List.mem_singleton_self _), ?_⟩
          rw [hsrc]
          rfl
      · rw [if_neg ht] at hd
        obtain ⟨p, hp, he⟩ := h d hd
        exact ⟨p, List.mem_append_left _ hp, he⟩

theorem processHeadings_defsLinked (html : List Char) (cands : List HeadingCand) :
    ∀ st : PState, defsLinked st = true →
    defsLinked (processHeadings html cands st) = true := by
  induction cands with
  | nil => intro st h; exact h
  | cons hm rest ih =>
    intro st h
    simp only [processHeadings]
    exact ih _ (stepHeadCore_defsLinked _ _ _ _ _ _ _ h)

theorem processArticulos_defsLinked (html : List Char) (starts : List ArtStart) :
    ∀ st : PState, defsLinked st = true →
    defsLinked (processArticulos html starts st) = true := by
  induction starts with
  | nil => intro st h; exact h
  | cons a rest ih =>
    intro st h
    simp only [processArticulos]
    exact ih _ (stepArtCore_defsLinked _ _ _ _ _ _ _ h)

/-- C9.  In every `parseSpanishHtml` result, every definition's
`source_provision` is the `provision_ref` of some provision present in
the same result: definitions are only extracted for provisions that were
themselves retained (not discarded for a missing ordinal or a too-short
body). -/
theorem C9_definitions_link_to_retained_provisions
    (html : List Char) (act : ActIndexEntry) :
    ((parseSpanishHtml html act).definitions.all (fun d =>
      (parseSpanishHtml html act).provisions.any (fun p =>
        decide (d.source_provision = some p.provision_ref)))) = true := by
  simp only [parseSpanishHtml]
  split
  · exact processHeadings_defsLinked _ _ _ rfl
  · exact processArticulos_defsLinked _ _ _ rfl

theorem data_strMk (l : List Char) : (String.mk l).data = l := rfl

theorem defBoundsOK_defOfCand (src : List Char) (c : List Char × List Char)
    (hc : candBoundsOK c = true) : defBoundsOK (defOfCand src c) = true := by
  simp only [candBoundsOK, decide_eq_true_eq] at hc
  simp only [defBoundsOK, defOfCand, decide_eq_true_eq, length_strMk]
  omega

theorem pushDefsNoDedup_bounds (src : List Char) :
    ∀ (cands : List (List Char × List Char)) (defs : List ParsedDefinition),
      defs.all defBoundsOK = true →
      (pushDefsNoDedup src cands defs).all defBoundsOK = true := by
  intro cands
  induction cands with
  | nil => intro defs h; exact h
  | cons c rest ih =>
    intro defs h
    simp only [pushDefsNoDedup]
    apply ih
    by_cases hc : 1 < (trimL c.1).length ∧ (trimL c.1).length < 100 ∧
        10 < (trimL c.2).length
    · rw [if_pos hc]
      have hb : defBoundsOK (defOfCand src c) = true :=
        defBoundsOK_defOfCand src c (decide_eq_true hc)
      rw [List.all_append, h, Bool.true_and]
      simpa [defOfCand, List.all_cons] using hb
    · rw [if_neg hc]
      exact h

theorem pushDefsDedup_bounds (src : List Char) :
    ∀ (cands : List (List Char × List Char)) (defs : List ParsedDefinition),
      defs.all defBoundsOK = true →
      (pushDefsDedup src cands defs).all defBoundsOK = true := by
  intro cands
  induction cands with
  | nil => intro defs h; exact h
  | cons c rest ih =>
    intro defs h
    simp only [pushDefsDedup]
    apply ih
    by_cases hc : 1 < (trimL c.1).length ∧ (trimL c.1).length < 100 ∧
        10 < (trimL c.2).length
    · rw [if_pos hc]
      split
      · exact h
      · have hb : defBoundsOK (defOfCand src c) = true :=
          defBoundsOK_defOfCand src c (decide_eq_true hc)
        rw [List.all_append, h, Bool.true_and]
        simpa [defOfCand, List.all_cons] using hb
    · rw [if_neg hc]
      exact h

theorem extractDefinitions_bounds (a src : List Char)
    (defs0 : List ParsedDefinition) (h : defs0.all defBoundsOK = true) :
    (extractDefinitions a src defs0).all defBoundsOK = true := by
  simp only [extractDefinitions]
  exact pushDefsDedup_bounds src _ _
    (pushDefsDedup_bounds src _ _ (pushDefsNoDedup_bounds src _ _ h))

theorem mem_defs_pushDefsNoDedup (src : List Char) :
    ∀ (cands : List (List Char × List Char)) (defs : List ParsedDefinition)
      (d : ParsedDefinition), d ∈ defs → d ∈ pushDefsNoDedup src cands defs := by
  intro cands
  induction cands with
  | nil => intro defs d hd; exact hd
  | cons c rest ih =>
    intro defs d hd
    simp only [pushDefsNoDedup]
    apply ih
    by_cases hc : 1 < (trimL c.1).length ∧ (trimL c.1).length < 100 ∧
        10 < (trimL c.2).length
    · rw [if_pos hc]
      exact List.mem_append_left _ hd
    · rw [if_neg hc]
      exact hd

theorem mem_defs_pushDefsDedup (src : List Char) :
    ∀ (cands : List (List Char × List Char)) (defs : List ParsedDefinition)
      (d : ParsedDefinition), d ∈ defs → d ∈ pushDefsDedup src cands defs := by
  intro cands
  induction cands with
  | nil => intro defs d hd; exact hd
  | cons c rest ih =>
    intro defs d hd
    simp only [pushDefsDedup]
    apply ih
    by_cases hc : 1 < (trimL c.1).length ∧ (trimL c.1).length < 100 ∧
        10 < (trimL c.2).length
    · rw [if_pos hc]
      split
      · exact hd
      · exact List.mem_append_left _ hd
    · rw [if_neg hc]
      exact hd

theorem cand_retained_pushDefsNoDedup (src : List Char) :
    ∀ (cands : List (List Char × List Char)) (defs : List ParsedDefinition)
      (c : List Char × List Char), c ∈ cands → candBoundsOK c = true →
      defOfCand src c ∈ pushDefsNoDedup src cands defs := by
  intro cands
  induction cands with
  | nil => intro defs c hc _; cases hc
  | cons c0 rest ih =>
    intro defs c hcmem hcb
    simp only [pushDefsNoDedup]
    rcases List.mem_cons.mp hcmem with heq | hmem
    · subst heq
      have hcond : 1 < (trimL c.1).length ∧ (trimL c.1).length < 100 ∧
          10 < (trimL c.2).length := of_decide_eq_true hcb
      rw [if_pos hcond]
      exact mem_defs_pushDefsNoDedup src rest _ _
        (List.mem_append_right _ (List.mem_singleton_self _))
    · exact ih _ c hmem hcb

theorem cand_ciRetained_pushDefsDedup (src : List Char) :
    ∀ (cands : List (List Char × List Char)) (defs : List ParsedDefinition)
      (c : List Char × List Char), c ∈ cands → candBoundsOK c = true →
      ∃ d ∈ pushDefsDedup src cands defs,
        jsLowerL d.term.data = jsLowerL (trimL c.1) ∧
        d.source_provision = some (String.mk src) := by
  intro cands
  induction cands with
  | nil => intro defs c hc _; cases hc
  | cons c0 rest ih =>
    intro defs c hcmem hcb
    simp only [pushDefsDedup]
    rcases List.mem_cons.mp hcmem with heq | hmem
    · subst heq
      have hcond : 1 < (trimL c.1).length ∧ (trimL c.1).length < 100 ∧
          10 < (trimL c.2).length := of_decide_eq_true hcb
      rw [if_pos hcond]
      by_cases hdup : (defs.any (fun d =>
          decide (jsLowerL d.term.data = jsLowerL (trimL c.1)) &&
          decide (d.source_provision = some (String.mk src)))) = true
      · rw [if_pos hdup]
        obtain ⟨d, hd, hp⟩ := List.any_eq_true.mp hdup
        rw [Bool.and_eq_true, decide_eq_true_eq, decide_eq_true_eq] at hp
        exact ⟨d, mem_defs_pushDefsDedup src rest _ _ hd, hp.1, hp.2⟩
      · rw [if_neg hdup]
        refine ⟨defOfCand src c, mem_defs_pushDefsDedup src rest _ _
          (List.mem_append_right _ (List.mem_singleton_self _)), ?_, rfl⟩
        rfl
    · exact ih _ c hmem hcb

/-- C5 counterexample.  On the stripped text `a) ab: 012345678.` the
lettered pattern produces the candidate `(ab, 012345678.)` whose trimmed
term length 2 lies in [2, 99] and whose trimmed definition length is
exactly 10 — within the claim's bounds — yet `extractDefinitions`
retains nothing: the code requires `definition.length > 10`, so a
definition of length exactly 10 is rejected. -/
theorem C5_counterexample :
    defCands reDefLettered (stripHtml "a) ab: 012345678.".data) =
      [("ab".data, "012345678.".data)] ∧
    (trimL "ab".data).length = 2 ∧
    (trimL "012345678.".data).length = 10 ∧
    extractDefinitions "a) ab: 012345678.".data "art1".data [] = [] := by
  decide

/-- C5 (amended).  Every retained definition has a trimmed term length in
[2, 99] and a trimmed definition length ≥ 11 (the code tests
`definition.length > 10`, so exactly-10-character definitions are
rejected); conversely, every candidate match of the lettered pattern
meeting these bounds is retained verbatim, and every candidate of the
quoted and numbered patterns meeting them is represented in the result
by a definition with a case-insensitively equal term and the same source
provision (itself, unless such a definition was already present). -/
theorem C5_definition_bounds_and_retention (a src : List Char) :
    ((extractDefinitions a src []).all defBoundsOK = true) ∧
    ((defCands reDefLettered (stripHtml a)).all (fun c =>
      !candBoundsOK c ||
        decide (defOfCand src c ∈ extractDefinitions a src [])) = true) ∧
    ((defCands reDefQuoted (stripHtml a)).all (fun c =>
      !candBoundsOK c || (extractDefinitions a src []).any (fun d =>
        decide (jsLowerL d.term.data = jsLowerL (trimL c.1)) &&
        decide (d.source_provision = some (String.mk src)))) = true) ∧
    ((defCands reDefNumbered (stripHtml a)).all (fun c =>
      !candBoundsOK c || (extractDefinitions a src []).any (fun d =>
        decide (jsLowerL d.term.data = jsLowerL (trimL c.1)) &&
        decide (d.source_provision = some (String.mk src)))) = true) := by
  refine ⟨extractDefinitions_bounds a src [] rfl, ?_, ?_, ?_⟩
  · rw [List.all_eq_true]
    intro c hc
    by_cases hb : candBoundsOK c = true
    · rw [Bool.or_eq_true, decide_eq_true_eq]
      right
      simp only [extractDefinitions]
      exact mem_defs_pushDefsDedup _ _ _ _ (mem_defs_pushDefsDedup _ _ _ _
        (cand_retained_pushDefsNoDedup _ _ _ c hc hb))
    · rw [Bool.or_eq_true]
      left
      simp [hb]
  · rw [List.all_eq_true]
    intro c hc
    by_cases hb : candBoundsOK c = true
    · rw [Bool.or_eq_true]
      right
      rw [List.any_eq_true]
      have hstep : ∃ d ∈ pushDefsDedup src (defCands reDefQuoted (stripHtml a))
          (pushDefsNoDedup src (defCands reDefLettered (stripHtml a)) []),
          jsLowerL d.term.data = jsLowerL (trimL c.1) ∧
          d.source_provision = some (String.mk src) :=
        cand_ciRetained_pushDefsDedup src _ _ c hc hb
      obtain ⟨d, hd, hp⟩ := hstep
      refine ⟨d, ?_, ?_⟩
      · simp only [extractDefinitions]
        exact mem_defs_pushDefsDedup _ _ _ _ hd
      · rw [Bool.and_eq_true, decide_eq_true_eq, decide_eq_true_eq]
        exact hp
    · rw [Bool.or_eq_true]
      left
      simp [hb]
  · rw [List.all_eq_true]
    intro c hc
    by_cases hb : candBoundsOK c = true
    · rw [Bool.or_eq_true]
      right
      rw [List.any_eq_true]
      have hstep := cand_ciRetained_pushDefsDedup src
        (defCands reDefNumbered (stripHtml a))
        (pushDefsDedup src (defCands reDefQuoted (stripHtml a))
          (pushDefsNoDedup src (defCands reDefLettered (stripHtml a)) []))
        c hc hb
      obtain ⟨d, hd, hp⟩ := hstep
      refine ⟨d, hd, ?_⟩
      rw [Bool.and_eq_true, decide_eq_true_eq, decide_eq_true_eq]
      exact hp
    · rw [Bool.or_eq_true]
      left
      simp [hb]

set_option maxRecDepth 100000 in
/-- The spec's end-to-end scenario, checked by evaluation: the markup
`<div class="articulo"><h5>Artículo 3 bis. Definiciones</h5><p>a) Dato:
cualquier información.</p></div>` parses to exactly one provision with
reference key `art3bis` and title `Definiciones`, and one definition
`Dato` with text `cualquier información.`. -/
theorem parse_end_to_end_scenario :
    parseSpanishHtml "<div class=\"articulo\"><h5>Artículo 3 bis. Definiciones</h5><p>a) Dato: cualquier información.</p></div>".data exampleAct =
      { id := "X", type := "statute", title := "T", title_en := "",
        short_name := "S", status := "in_force", issued_date := "d1",
        in_force_date := "d2", url := "u", description := none,
        provisions := [{ provision_ref := "art3bis", chapter := none,
                         sectionLabel := "3bis", title := "Definiciones",
                         content := "a) Dato: cualquier información." }],
        definitions := [{ term := "Dato",
                          definition := "cualquier información.",
                          source_provision := some "art3bis" }] } := by
  decide

/-- The retry loop in general: when every attempt up to `maxRetries`
yields a retryable status, the loop issues exactly one request per
permitted iteration and then returns the last status as a normal
result — the exhausted branch is never reached. -/
theorem fetchLoop_all_retryable (statusOf durOf : Nat → Nat) (maxRetries : Nat) :
    ∀ (rem attempt tNow : Nat) (starts : List Nat),
      rem = maxRetries + 1 - attempt → attempt ≤ maxRetries →
      (∀ i, attempt ≤ i → i ≤ maxRetries → statusOf i = 429 ∨ 500 ≤ statusOf i) →
      (fetchLoop statusOf durOf maxRetries rem attempt tNow starts).2.1.length =
        starts.length + (maxRetries + 1 - attempt) ∧
      (fetchLoop statusOf durOf maxRetries rem attempt tNow starts).2.2 =
        .ok (statusOf maxRetries) := by
  intro rem
  induction rem with
  | zero =>
    intro attempt tNow starts hrem hle _
    omega
  | succ rem ih =>
    intro attempt tNow starts hrem hle hall
    simp only [fetchLoop]
    by_cases hlt : attempt < maxRetries
    · rw [if_pos ⟨hall attempt le_rfl (Nat.le_of_lt hlt), hlt⟩]
      have hnext := ih (attempt + 1) (tNow + durOf attempt + 2 ^ (attempt + 1) * 1000)
        (starts ++ [tNow]) (by omega) (by omega)
        (fun i h1 h2 => hall i (by omega) h2)
      refine ⟨?_, hnext.2⟩
      rw [hnext.1, List.length_append]
      simp
      omega
    · have heq : attempt = maxRetries := by omega
      rw [if_neg (fun hco => hlt hco.2)]
      refine ⟨?_, by rw [heq]⟩
      rw [List.length_append]
      simp
      omega

/-- `fetchWithRateLimit` in general: on a uniformly retryable endpoint it
makes exactly `maxRetries + 1` attempts and returns a `FetchResult` with
the last observed status instead of failing. -/
theorem fetchWithRateLimit_all_retryable (st : FetchState) (now : Nat)
    (statusOf durOf : Nat → Nat) (maxRetries : Nat)
    (h : ∀ i, i ≤ maxRetries → statusOf i = 429 ∨ 500 ≤ statusOf i) :
    (fetchWithRateLimit st now statusOf durOf maxRetries).starts.length =
      maxRetries + 1 ∧
    (fetchWithRateLimit st now statusOf durOf maxRetries).outcome =
      .ok (statusOf maxRetries) := by
  have hmain := fetchLoop_all_retryable statusOf durOf maxRetries
    (maxRetries + 1) 0 (rateLimit st now).2 [] (by omega) (Nat.zero_le _)
    (fun i _ h2 => h i h2)
  simp only [fetchWithRateLimit]
  exact ⟨by rw [hmain.1]; simp, hmain.2⟩

end Spanish
